import Mathlib

/-!
Shallow embedding of `src/grepcidr.py`, a line-filtering utility that selects
input lines whose configured whitespace-delimited field is an IP address lying
in one of the given CIDR networks.

Modelling conventions:
* Python's `ipaddress.ip_network(s, strict=False)` and `ipaddress.ip_address(s)`
  are external library calls; the embedded functions are parameterised by
  `parseNet : String → Option Network` and `parseAddr : String → Option Address`
  (success/failure of the library parse).  A concrete executable model of the
  IPv4 fragment of that library (`parseIPv4Network`, `parseIPv4Addr`) is
  provided for evaluation on concrete inputs; `strict=False` masking is
  reflected in `parseIPv4Network` composing a raw-literal parse with
  `maskAddr`.
* Machine integers: addresses are `Nat` values below `2 ^ 32` (v4) or
  `2 ^ 128` (v6); masking uses explicit division/multiplication by powers of 2.
* I/O: the contents of the CIDR file (flag `-C`) are passed as an optional list
  of lines, and the resolved input stream is passed to `main` as the list of
  lines Python's file iteration would yield (each line keeps its trailing
  newline, except possibly the last).  Output is the list of strings written to
  stdout, in order; `sys.exit` on an error path becomes `Except.error`.
  Failure to open a file is an external I/O condition, not modelled.
-/

namespace Grepcidr

/-- An IP address as produced by `ipaddress.ip_address`: a family (`version`,
4 or 6) and the numeric address value. -/
structure Address where
  version : Nat
  addr : Nat
  deriving DecidableEq, Repr

/-- An IP network as produced by `ipaddress.ip_network(·, strict=False)`:
family, prefix length (`plen`, Python's `prefixlen`) and the canonical masked
base address (`network_address`). -/
structure Network where
  version : Nat
  plen : Nat
  network_address : Nat
  deriving DecidableEq, Repr

/-- Address width in bits of a family: 32 for v4, 128 for v6. -/
def bitsOf (version : Nat) : Nat :=
  if version = 4 then 32 else 128

/-- Mask an address value down to its top `plen` bits (zero the low
`bits - plen` host bits): Python's `addr & netmask`. -/
def maskAddr (bits addr plen : Nat) : Nat :=
  addr / 2 ^ (bits - plen) * 2 ^ (bits - plen)

/-! ### String helpers (faithful models of the Python string operations used) -/

/-- Python `not line.strip()`: every character of the line is whitespace. -/
def strippedEmpty (s : String) : Bool :=
  s.data.all Char.isWhitespace

/-- Python `str.strip()`: drop leading and trailing whitespace characters. -/
def pyStrip (s : String) : String :=
  String.mk (((s.data.dropWhile Char.isWhitespace).reverse.dropWhile
    Char.isWhitespace).reverse)

/-- Python `s.startswith(c)` for a single character. -/
def startsWithChar (c : Char) (s : String) : Bool :=
  match s.data with
  | [] => false
  | c' :: _ => c' = c

/-- Groups of consecutive non-separator characters, splitting at every
occurrence of characters satisfying `sep`; empty groups are kept (so
consecutive separators yield empty groups). -/
def splitGroups (sep : Char → Bool) (l : List Char) : List (List Char) :=
  l.foldr
    (fun c acc =>
      if sep c then [] :: acc
      else
        match acc with
        | [] => [[c]]
        | w :: ws => (c :: w) :: ws)
    [[]]

/-- Python `line.split()` (no argument): split on runs of whitespace,
discarding empty fields. -/
def pySplit (s : String) : List String :=
  ((splitGroups (fun c => c.isWhitespace) s.data).filter
    (fun w => w ≠ [])).map String.mk

/-- Python `s.split(c)` for a single-character separator: empty parts kept. -/
def splitOnChar (c : Char) (s : String) : List (List Char) :=
  splitGroups (fun c' => c' = c) s.data

/-! ### Concrete IPv4 fragment of the `ipaddress` parsers -/

/-- Numeric value of a decimal digit list. -/
def digitsVal (l : List Char) : Nat :=
  l.foldl (fun a c => a * 10 + (c.toNat - '0'.toNat)) 0

/-- A decimal number field as accepted by `ipaddress` (non-empty, all digits,
no leading zero unless it is exactly "0"), bounded by `bound`. -/
def parseDecimal (bound : Nat) (l : List Char) : Option Nat :=
  if l = [] then none
  else if ¬ l.all Char.isDigit then none
  else if l.length > 1 ∧ l.head? = some '0' then none
  else if digitsVal l ≤ bound then some (digitsVal l) else none

/-- One dotted-quad octet: 0–255. -/
def parseOctet (l : List Char) : Option Nat :=
  if l.length > 3 then none else parseDecimal 255 l

/-- The numeric value of an IPv4 dotted-quad literal `a.b.c.d`. -/
def parseIPv4Value (l : List Char) : Option Nat :=
  match (splitGroups (fun c => c = '.') l).map parseOctet with
  | [some a, some b, some c, some d] =>
      some (a * 2 ^ 24 + b * 2 ^ 16 + c * 2 ^ 8 + d)
  | _ => none

/-- Raw IPv4 network literal, before masking: the address value and the prefix
length (`/p` suffix; a bare address gets prefix 32), host bits untouched. -/
def parseIPv4Literal (s : String) : Option (Nat × Nat) :=
  match splitOnChar '/' s with
  | [a] => (parseIPv4Value a).map (fun v => (v, 32))
  | [a, p] =>
      match parseIPv4Value a, parseDecimal 32 p with
      | some v, some plen => some (v, plen)
      | _, _ => none
  | _ => none

/-- Model of `ipaddress.ip_network(s, strict=False)` on the IPv4 dotted-quad
CIDR fragment: lenient parse, host bits silently masked off. -/
def parseIPv4Network (s : String) : Option Network :=
  (parseIPv4Literal s).map (fun vp => ⟨4, vp.2, maskAddr 32 vp.1 vp.2⟩)

/-- Model of `ipaddress.ip_address(s)` on the IPv4 dotted-quad fragment. -/
def parseIPv4Addr (s : String) : Option Address :=
  (parseIPv4Value s.data).map (fun v => ⟨4, v⟩)

/-! ### The embedded program -/

/-- The parsed command line (`parse_args`): `expr` from repeated `-e`,
`cidr_file` is the contents of the `-C` file as a list of lines (`none` when
the flag is absent), the three boolean flags, the 1-based `field` number
(a Python `int`, hence `Int`), and the trailing positional tokens `args`. -/
structure Args where
  expr : List String
  cidr_file : Option (List String)
  invert_match : Bool
  count : Bool
  only_matching : Bool
  field : Int
  args : List String
  deriving DecidableEq, Repr

/-- The `sys.exit` error paths of `load_cidrs` and `main` (file-open I/O
errors excluded, see the module comment). -/
inductive ExitError where
  | badField
  | noCidrs
  | invalidCidr (cidr : String)
  deriving DecidableEq, Repr

/-- CPython `net.__contains__(ip)` (`ip in net`): false across families,
otherwise the address masked with the network's netmask equals the network's
base address. -/
def ipaddress_contains (net : Network) (ip : Address) : Bool :=
  ip.version == net.version &&
    maskAddr (bitsOf net.version) ip.addr net.plen == net.network_address

/-- Source lines 107–116: parse the field text as an address (an unparseable
field yields false), then scan the networks for `ip.version == net.version and
ip in net`, short-circuiting on the first hit. -/
def ip_matches_any (parseAddr : String → Option Address) (ip_s : String)
    (networks : List Network) : Bool :=
  match parseAddr ip_s with
  | none => false
  | some ip =>
      networks.any (fun net => ip.version == net.version && ipaddress_contains net ip)

/-- Source lines 78–90: disambiguate the positional tokens.  If the list is
empty nothing is contributed; otherwise the last token is tried as a network:
on success all positional tokens are expressions and there is no input file,
on failure the last token is the input filename and the rest are expressions. -/
def resolvePositional (parseNet : String → Option Network)
    (positional : List String) : List String × Option String :=
  match positional.getLast? with
  | none => ([], none)
  | some maybe_last =>
      match parseNet maybe_last with
      | some _ => (positional, none)
      | none => (positional.dropLast, some maybe_last)

/-- Source lines 64–71: expressions contributed by the `-C` file: each line
stripped, blank lines and lines starting with a hash skipped. -/
def file_cidr_strings : Option (List String) → List String
  | none => []
  | some ls =>
      (ls.map pyStrip).filter (fun l => !(l == "" || startsWithChar '#' l))

/-- The full `cidr_strings` list of `load_cidrs` (lines 58–90): `-e`
expressions, then file expressions, then the positional expressions. -/
def cidr_strings_of (parseNet : String → Option Network) (args : Args) :
    List String :=
  args.expr ++ file_cidr_strings args.cidr_file ++
    (resolvePositional parseNet args.args).1

/-- Source lines 96–102: parse every expression in order, aborting at the
first failure with the offending text. -/
def parse_networks (parseNet : String → Option Network) :
    List String → Except ExitError (List Network)
  | [] => .ok []
  | cidr :: rest =>
      match parseNet cidr with
      | none => .error (.invalidCidr cidr)
      | some net =>
          match parse_networks parseNet rest with
          | .error e => .error e
          | .ok nets => .ok (net :: nets)

/-- Source lines 57–104 (`load_cidrs`): gather the expressions from the three
sources, fail with exit 2 if none, parse them all, and return the networks
together with the optional input filename. -/
def load_cidrs (parseNet : String → Option Network) (args : Args) :
    Except ExitError (List Network × Option String) :=
  if cidr_strings_of parseNet args = [] then .error .noCidrs
  else
    match parse_networks parseNet (cidr_strings_of parseNet args) with
    | .error e => .error e
    | .ok networks => .ok (networks, (resolvePositional parseNet args.args).2)

/-- Source lines 140–160, the body of the line loop of `main`.  The
accumulator is `(selected, written)`: the running selection count and the
chunks written to stdout so far.  Blank-after-strip lines and lines with too
few fields are skipped; otherwise the field is matched (inverted when `-v`),
and a matched line bumps the count and, unless `-c`, writes either the field
text plus a newline (`print(ip_s)`, with `-o`) or the raw line unchanged
(`print(line, end="")`). -/
def processLine (parseAddr : String → Option Address) (args : Args)
    (networks : List Network) (field_index : Nat)
    (acc : Nat × List String) (line : String) : Nat × List String :=
  if strippedEmpty line then acc
  else if (pySplit line).length ≤ field_index then acc
  else if (if args.invert_match
      then !(ip_matches_any parseAddr ((pySplit line).getD field_index "") networks)
      else ip_matches_any parseAddr ((pySplit line).getD field_index "") networks) then
    (acc.1 + 1,
      if args.count then acc.2
      else if args.only_matching then
        acc.2 ++ [(pySplit line).getD field_index "" ++ "\n"]
      else acc.2 ++ [line])
  else acc

/-- Characterisation of the effective match decision of `processLine` (the
spec's per-line procedure): a skipped line (blank after strip, or field index
beyond the field count) is never selected; otherwise the selection is the raw
membership result XOR the invert flag. -/
def lineSelected (parseAddr : String → Option Address) (args : Args)
    (networks : List Network) (field_index : Nat) (line : String) : Bool :=
  if strippedEmpty line then false
  else if (pySplit line).length ≤ field_index then false
  else if args.invert_match
    then !(ip_matches_any parseAddr ((pySplit line).getD field_index "") networks)
    else ip_matches_any parseAddr ((pySplit line).getD field_index "") networks

/-- Source lines 119–166 (`main`): validate the field number, build the
networks, then stream the input lines through `processLine`, and in count mode
emit the final count as the only output (`print(selected)` appends a
newline).  `input` is the list of lines of the resolved input source; the
returned list is everything written to stdout, in order. -/
def main (parseNet : String → Option Network) (parseAddr : String → Option Address)
    (args : Args) (input : List String) : Except ExitError (List String) :=
  if args.field < 1 then .error .badField
  else
    match load_cidrs parseNet args with
    | .error e => .error e
    | .ok (networks, _) =>
        match input.foldl
            (processLine parseAddr args networks (args.field - 1).toNat) (0, []) with
        | (selected, written) =>
            if args.count then .ok (written ++ [Nat.repr selected ++ "\n"])
            else .ok written

/-! ### Helper lemmas -/

/-- When every character of the list satisfies the separator predicate, every
group produced by `splitGroups` is empty. -/
lemma splitGroups_all_sep (sep : Char → Bool) (l : List Char)
    (h : ∀ c ∈ l, sep c = true) : ∀ g ∈ splitGroups sep l, g = [] := by
  induction l with
  | nil =>
      intro g hg
      simp only [splitGroups, List.foldr_nil, List.mem_singleton] at hg
      exact hg
  | cons c cs ih =>
      intro g hg
      have hc : sep c = true := h c (List.mem_cons_self c cs)
      simp only [splitGroups, List.foldr_cons, hc, if_true] at hg
      rcases List.mem_cons.mp hg with h1 | h1
      · exact h1
      · exact ih (fun c' hc' => h c' (List.mem_cons_of_mem c hc')) g h1

/-- A line that strips to nothing splits into no fields. -/
lemma pySplit_eq_nil_of_strippedEmpty (line : String)
    (h : strippedEmpty line = true) : pySplit line = [] := by
  have hall : ∀ c ∈ line.data, c.isWhitespace = true := by
    simpa [strippedEmpty, List.all_eq_true] using h
  have hg := splitGroups_all_sep (fun c => c.isWhitespace) line.data hall
  unfold pySplit
  have : (splitGroups (fun c => c.isWhitespace) line.data).filter
      (fun w => w ≠ []) = [] := by
    refine List.filter_eq_nil_iff.mpr (fun g hgmem => ?_)
    simp [hg g hgmem]
  rw [this]
  rfl

/-- A line with a field at the configured index is not blank after stripping. -/
lemma strippedEmpty_false_of_lt (line : String) (field_index : Nat)
    (h : field_index < (pySplit line).length) : strippedEmpty line = false := by
  cases hs : strippedEmpty line with
  | false => rfl
  | true =>
      rw [pySplit_eq_nil_of_strippedEmpty line hs] at h
      exact absurd h (by simp)

/-- `processLine` in terms of the selection decision: a selected line bumps
the count and appends its single output chunk, an unselected line leaves the
accumulator unchanged. -/
lemma processLine_eq (parseAddr : String → Option Address) (args : Args)
    (networks : List Network) (field_index : Nat) (acc : Nat × List String)
    (line : String) :
    processLine parseAddr args networks field_index acc line =
      if lineSelected parseAddr args networks field_index line then
        (acc.1 + 1,
          if args.count then acc.2
          else if args.only_matching then
            acc.2 ++ [(pySplit line).getD field_index "" ++ "\n"]
          else acc.2 ++ [line])
      else acc := by
  unfold processLine lineSelected
  by_cases h1 : strippedEmpty line = true
  · simp [h1]
  · by_cases h2 : (pySplit line).length ≤ field_index
    · simp [h1, h2]
    · by_cases h3 : (if args.invert_match
          then !(ip_matches_any parseAddr ((pySplit line).getD field_index "") networks)
          else ip_matches_any parseAddr ((pySplit line).getD field_index "") networks) = true
      · simp [h1, h2, h3]
      · simp [h1, h2, h3]

/-- The selection count after folding the line loop: initial count plus the
number of selected lines. -/
lemma foldl_processLine_fst (parseAddr : String → Option Address) (args : Args)
    (networks : List Network) (field_index : Nat) (input : List String) :
    ∀ acc : Nat × List String,
      (input.foldl (processLine parseAddr args networks field_index) acc).1 =
        acc.1 + input.countP (lineSelected parseAddr args networks field_index) := by
  induction input with
  | nil => intro acc; simp
  | cons line rest ih =>
      intro acc
      rw [List.foldl_cons, ih, processLine_eq, List.countP_cons]
      by_cases h : lineSelected parseAddr args networks field_index line = true
      · simp only [h, if_true]
        omega
      · simp only [h, if_false]
        simp at h
        simp [h]

/-- In count mode the line loop writes nothing. -/
lemma foldl_processLine_snd_count (parseAddr : String → Option Address)
    (args : Args) (networks : List Network) (field_index : Nat)
    (hc : args.count = true) (input : List String) :
    ∀ acc : Nat × List String,
      (input.foldl (processLine parseAddr args networks field_index) acc).2 = acc.2 := by
  induction input with
  | nil => intro acc; simp
  | cons line rest ih =>
      intro acc
      rw [List.foldl_cons, ih, processLine_eq]
      by_cases h : lineSelected parseAddr args networks field_index line = true
      · simp [h, hc]
      · simp [h]

/-- A failing expression in the list makes `parse_networks` abort with the
first failing expression's text. -/
lemma parse_networks_error (parseNet : String → Option Network)
    (l : List String) (c : String) (hc : c ∈ l) (hfail : parseNet c = none) :
    ∃ c', c' ∈ l ∧ parseNet c' = none ∧
      parse_networks parseNet l = .error (.invalidCidr c') := by
  induction l with
  | nil => exact absurd hc (List.not_mem_nil c)
  | cons x rest ih =>
      cases hx : parseNet x with
      | none =>
          exact ⟨x, List.mem_cons_self x rest, hx, by simp [parse_networks, hx]⟩
      | some n =>
          have hcrest : c ∈ rest := by
            rcases List.mem_cons.mp hc with h | h
            · rw [h] at hfail; rw [hfail] at hx; exact absurd hx (by simp)
            · exact h
          obtain ⟨c', hc'mem, hc'fail, hc'err⟩ := ih hcrest
          refine ⟨c', List.mem_cons_of_mem x hc'mem, hc'fail, ?_⟩
          simp [parse_networks, hx, hc'err]

/-- `main` on a successful build: the streamed writes, plus the final count
line in count mode. -/
lemma main_ok (parseNet : String → Option Network)
    (parseAddr : String → Option Address) (args : Args) (input : List String)
    (networks : List Network) (infile : Option String)
    (hfield : ¬ args.field < 1)
    (hload : load_cidrs parseNet args = .ok (networks, infile)) :
    main parseNet parseAddr args input =
      (if args.count then
        .ok ((input.foldl (processLine parseAddr args networks
            (args.field - 1).toNat) (0, [])).2 ++
          [Nat.repr (input.foldl (processLine parseAddr args networks
            (args.field - 1).toNat) (0, [])).1 ++ "\n"])
      else
        .ok (input.foldl (processLine parseAddr args networks
          (args.field - 1).toNat) (0, [])).2) := by
  unfold main
  rw [if_neg hfield, hload]

/-! ### The claims -/

/-- C1: for a non-empty positional token list only the last token is
inspected: if it parses as a network, all positional tokens (the last
included) join the expression list and the input source stays absent; if it
does not parse, the last token becomes the input filename and exactly the
preceding tokens join the expression list. -/
theorem c1_positional_disambiguation (parseNet : String → Option Network)
    (args : Args) (last : String) (h : args.args.getLast? = some last) :
    ((parseNet last).isSome = true →
      cidr_strings_of parseNet args =
        args.expr ++ file_cidr_strings args.cidr_file ++ args.args ∧
      (resolvePositional parseNet args.args).2 = none) ∧
    (parseNet last = none →
      cidr_strings_of parseNet args =
        args.expr ++ file_cidr_strings args.cidr_file ++ args.args.dropLast ∧
      (resolvePositional parseNet args.args).2 = some last) := by
  constructor
  · intro hsome
    obtain ⟨n, hn⟩ := Option.isSome_iff_exists.mp hsome
    constructor <;> simp [cidr_strings_of, resolvePositional, h, hn]
  · intro hnone
    constructor <;> simp [cidr_strings_of, resolvePositional, h, hnone]

theorem c1_positional_disambiguation_witness :
    (cidr_strings_of parseIPv4Network
        ⟨[], none, false, false, false, 1, ["10.0.0.0/8", "192.168.1.0/24"]⟩ =
        [] ++ file_cidr_strings none ++ ["10.0.0.0/8", "192.168.1.0/24"] ∧
      (resolvePositional parseIPv4Network ["10.0.0.0/8", "192.168.1.0/24"]).2 =
        none) ∧
    (cidr_strings_of parseIPv4Network
        ⟨[], none, false, false, false, 1, ["10.0.0.0/8", "hosts.txt"]⟩ =
        [] ++ file_cidr_strings none ++ ["10.0.0.0/8"] ∧
      (resolvePositional parseIPv4Network ["10.0.0.0/8", "hosts.txt"]).2 =
        some "hosts.txt") :=
  ⟨(c1_positional_disambiguation parseIPv4Network
      ⟨[], none, false, false, false, 1, ["10.0.0.0/8", "192.168.1.0/24"]⟩
      "192.168.1.0/24" (by decide)).1 (by decide),
   (c1_positional_disambiguation parseIPv4Network
      ⟨[], none, false, false, false, 1, ["10.0.0.0/8", "hosts.txt"]⟩
      "hosts.txt" (by decide)).2 (by decide)⟩

/-- C2: for a parseable address, membership holds iff some stored network has
the same family and the address masked to the network's prefix length equals
the network's base address; a family mismatch on every network forces a
non-match, and the empty network set never matches. -/
theorem c2_membership (parseAddr : String → Option Address) (ip_s : String)
    (networks : List Network) (ip : Address) (h : parseAddr ip_s = some ip) :
    (ip_matches_any parseAddr ip_s networks = true ↔
      ∃ net ∈ networks, ip.version = net.version ∧
        maskAddr (bitsOf net.version) ip.addr net.plen = net.network_address) ∧
    ((∀ net ∈ networks, net.version ≠ ip.version) →
      ip_matches_any parseAddr ip_s networks = false) ∧
    ip_matches_any parseAddr ip_s [] = false := by
  have hmain : ip_matches_any parseAddr ip_s networks = true ↔
      ∃ net ∈ networks, ip.version = net.version ∧
        maskAddr (bitsOf net.version) ip.addr net.plen = net.network_address := by
    unfold ip_matches_any
    rw [h]
    simp only [List.any_eq_true, Bool.and_eq_true, beq_iff_eq, ipaddress_contains]
    constructor
    · rintro ⟨net, hnet, h1, _, h3⟩
      exact ⟨net, hnet, h1, h3⟩
    · rintro ⟨net, hnet, h1, h3⟩
      exact ⟨net, hnet, h1, h1, h3⟩
  refine ⟨hmain, ?_, ?_⟩
  · intro hall
    cases hres : ip_matches_any parseAddr ip_s networks with
    | false => rfl
    | true =>
        obtain ⟨net, hnet, h1, _⟩ := hmain.mp hres
        exact absurd h1.symm (hall net hnet)
  · unfold ip_matches_any
    cases parseAddr ip_s <;> simp

theorem c2_membership_witness :
    (ip_matches_any parseIPv4Addr "10.1.2.3"
        [(⟨4, 8, 167772160⟩ : Network)] = true ↔
      ∃ net ∈ [(⟨4, 8, 167772160⟩ : Network)],
        (⟨4, 167838211⟩ : Address).version = net.version ∧
        maskAddr (bitsOf net.version) (⟨4, 167838211⟩ : Address).addr net.plen =
          net.network_address) ∧
    ((∀ net ∈ [(⟨4, 8, 167772160⟩ : Network)],
        net.version ≠ (⟨4, 167838211⟩ : Address).version) →
      ip_matches_any parseIPv4Addr "10.1.2.3"
        [(⟨4, 8, 167772160⟩ : Network)] = false) ∧
    ip_matches_any parseIPv4Addr "10.1.2.3" [] = false :=
  c2_membership parseIPv4Addr "10.1.2.3" [⟨4, 8, 167772160⟩] ⟨4, 167838211⟩
    (by decide)

/-- C3: both per-line soft failures are non-matches, not errors: a field
index beyond the line's field count skips the line (accumulator unchanged,
never selected), and an unparseable field makes the raw membership false so
that the effective selection is exactly the invert flag; `processLine` is a
total function, so neither case can abort the run. -/
theorem c3_soft_failures (parseAddr : String → Option Address) (args : Args)
    (networks : List Network) (field_index : Nat) (acc : Nat × List String)
    (line : String) :
    (strippedEmpty line = false → (pySplit line).length ≤ field_index →
      processLine parseAddr args networks field_index acc line = acc ∧
      lineSelected parseAddr args networks field_index line = false) ∧
    (field_index < (pySplit line).length →
      parseAddr ((pySplit line).getD field_index "") = none →
      ip_matches_any parseAddr ((pySplit line).getD field_index "") networks =
        false ∧
      lineSelected parseAddr args networks field_index line =
        args.invert_match) := by
  constructor
  · intro h1 h2
    constructor
    · simp [processLine, h1, h2]
    · simp [lineSelected, h1, h2]
  · intro hlt hparse
    have hne := strippedEmpty_false_of_lt line field_index hlt
    have hnle : ¬ (pySplit line).length ≤ field_index := Nat.not_le.mpr hlt
    have hm : ip_matches_any parseAddr ((pySplit line).getD field_index "")
        networks = false := by
      unfold ip_matches_any
      rw [hparse]
    refine ⟨hm, ?_⟩
    simp only [lineSelected, hne, hnle, hm, Bool.false_eq_true, if_false]
    cases args.invert_match <;> simp

theorem c3_soft_failures_witness :
    (processLine parseIPv4Addr ⟨["10.0.0.0/8"], none, false, false, false, 1, []⟩
        [(⟨4, 8, 167772160⟩ : Network)] 5 (0, []) "host1 10.1.2.3 up" = (0, []) ∧
      lineSelected parseIPv4Addr ⟨["10.0.0.0/8"], none, false, false, false, 1, []⟩
        [(⟨4, 8, 167772160⟩ : Network)] 5 "host1 10.1.2.3 up" = false) ∧
    (ip_matches_any parseIPv4Addr
        ((pySplit "host1 10.1.2.3 up").getD 2 "") [(⟨4, 8, 167772160⟩ : Network)] =
        false ∧
      lineSelected parseIPv4Addr ⟨["10.0.0.0/8"], none, false, false, false, 1, []⟩
        [(⟨4, 8, 167772160⟩ : Network)] 2 "host1 10.1.2.3 up" =
        (⟨["10.0.0.0/8"], none, false, false, false, 1, []⟩ : Args).invert_match) :=
  ⟨(c3_soft_failures parseIPv4Addr ⟨["10.0.0.0/8"], none, false, false, false, 1, []⟩
      [⟨4, 8, 167772160⟩] 5 (0, []) "host1 10.1.2.3 up").1 (by decide) (by decide),
   (c3_soft_failures parseIPv4Addr ⟨["10.0.0.0/8"], none, false, false, false, 1, []⟩
      [⟨4, 8, 167772160⟩] 2 (0, []) "host1 10.1.2.3 up").2 (by decide) (by decide)⟩

/-- C4: in count mode the program writes exactly one chunk: the decimal count
of the lines selected by the per-line procedure (raw membership XOR invert,
over the non-skipped lines), followed by a newline, and nothing else. -/
theorem c4_count_mode (parseNet : String → Option Network)
    (parseAddr : String → Option Address) (args : Args) (input : List String)
    (networks : List Network) (infile : Option String)
    (hcount : args.count = true)
    (hfield : ¬ args.field < 1)
    (hload : load_cidrs parseNet args = .ok (networks, infile)) :
    main parseNet parseAddr args input =
      .ok [Nat.repr (input.countP
        (lineSelected parseAddr args networks (args.field - 1).toNat)) ++ "\n"] := by
  rw [main_ok parseNet parseAddr args input networks infile hfield hload,
    if_pos hcount,
    foldl_processLine_snd_count parseAddr args networks (args.field - 1).toNat
      hcount input (0, []),
    foldl_processLine_fst parseAddr args networks (args.field - 1).toNat
      input (0, [])]
  simp

theorem c4_count_mode_witness :
    main parseIPv4Network parseIPv4Addr
        ⟨["10.0.0.0/8"], none, false, true, false, 1, []⟩
        ["10.1.2.3 up\n", "8.8.8.8 x\n", "10.9.9.9\n"] =
      .ok [Nat.repr ((["10.1.2.3 up\n", "8.8.8.8 x\n", "10.9.9.9\n"] : List String).countP
        (lineSelected parseIPv4Addr ⟨["10.0.0.0/8"], none, false, true, false, 1, []⟩
          [(⟨4, 8, 167772160⟩ : Network)] (((1 : Int) - 1)).toNat)) ++ "\n"] :=
  c4_count_mode parseIPv4Network parseIPv4Addr
    ⟨["10.0.0.0/8"], none, false, true, false, 1, []⟩
    ["10.1.2.3 up\n", "8.8.8.8 x\n", "10.9.9.9\n"]
    [⟨4, 8, 167772160⟩] none rfl (by decide) rfl

/-- C5: outside count mode a selected line causes exactly one write: the
field's text plus a newline under only-matching, otherwise the original line
text unchanged (its terminator and spacing included); the selection count
increments by one either way. -/
theorem c5_matched_line_output (parseAddr : String → Option Address)
    (args : Args) (networks : List Network) (field_index : Nat)
    (acc : Nat × List String) (line : String)
    (hsel : lineSelected parseAddr args networks field_index line = true)
    (hcount : args.count = false) :
    (processLine parseAddr args networks field_index acc line).2 =
      acc.2 ++ [if args.only_matching
        then (pySplit line).getD field_index "" ++ "\n" else line] ∧
    (processLine parseAddr args networks field_index acc line).1 = acc.1 + 1 := by
  rw [processLine_eq, if_pos hsel]
  refine ⟨?_, rfl⟩
  rw [hcount]
  cases args.only_matching <;> simp

theorem c5_matched_line_output_witness :
    (processLine parseIPv4Addr ⟨["10.0.0.0/8"], none, false, false, true, 2, []⟩
        [(⟨4, 8, 167772160⟩ : Network)] 1 (0, []) "host1 10.1.2.3 up\n").2 =
      [] ++ [if (⟨["10.0.0.0/8"], none, false, false, true, 2, []⟩ : Args).only_matching
        then (pySplit "host1 10.1.2.3 up\n").getD 1 "" ++ "\n"
        else "host1 10.1.2.3 up\n"] ∧
    (processLine parseIPv4Addr ⟨["10.0.0.0/8"], none, false, false, true, 2, []⟩
        [(⟨4, 8, 167772160⟩ : Network)] 1 (0, []) "host1 10.1.2.3 up\n").1 = 0 + 1 :=
  c5_matched_line_output parseIPv4Addr
    ⟨["10.0.0.0/8"], none, false, false, true, 2, []⟩
    [⟨4, 8, 167772160⟩] 1 (0, []) "host1 10.1.2.3 up\n" (by decide) rfl

/-- C6: a line that is empty or whitespace-only is always skipped: the
accumulator (count and written output) is unchanged and the line is never
selected, whatever the invert, count and only-matching flags are. -/
theorem c6_blank_line_skipped (parseAddr : String → Option Address)
    (args : Args) (networks : List Network) (field_index : Nat)
    (acc : Nat × List String) (line : String)
    (h : strippedEmpty line = true) :
    processLine parseAddr args networks field_index acc line = acc ∧
    lineSelected parseAddr args networks field_index line = false := by
  constructor <;> simp [processLine, lineSelected, h]

theorem c6_blank_line_skipped_witness :
    processLine parseIPv4Addr ⟨["10.0.0.0/8"], none, true, true, true, 1, []⟩
        [(⟨4, 8, 167772160⟩ : Network)] 0 (0, []) "  " = (0, []) ∧
    lineSelected parseIPv4Addr ⟨["10.0.0.0/8"], none, true, true, true, 1, []⟩
        [(⟨4, 8, 167772160⟩ : Network)] 0 "  " = false :=
  c6_blank_line_skipped parseIPv4Addr ⟨["10.0.0.0/8"], none, true, true, true, 1, []⟩
    [⟨4, 8, 167772160⟩] 0 (0, []) "  " (by decide)

/-- C7: a network literal with non-zero host bits is not rejected: the lenient
parse accepts it and silently masks the host bits off, and a build from that
single expression succeeds with the canonical masked base address. -/
theorem c7_lenient_masking (s : String) (v plen : Nat)
    (hparse : parseIPv4Literal s = some (v, plen))
    (_hhost : maskAddr 32 v plen ≠ v) :
    parseIPv4Network s = some ⟨4, plen, maskAddr 32 v plen⟩ ∧
    load_cidrs parseIPv4Network ⟨[s], none, false, false, false, 1, []⟩ =
      .ok ([⟨4, plen, maskAddr 32 v plen⟩], none) := by
  have hp : parseIPv4Network s = some ⟨4, plen, maskAddr 32 v plen⟩ := by
    simp [parseIPv4Network, hparse]
  refine ⟨hp, ?_⟩
  simp [load_cidrs, cidr_strings_of, file_cidr_strings, resolvePositional,
    parse_networks, hp]

theorem c7_lenient_masking_witness :
    parseIPv4Network "10.0.0.5/8" =
      some ⟨4, 8, maskAddr 32 167772165 8⟩ ∧
    load_cidrs parseIPv4Network
        ⟨["10.0.0.5/8"], none, false, false, false, 1, []⟩ =
      .ok ([⟨4, 8, maskAddr 32 167772165 8⟩], none) :=
  c7_lenient_masking "10.0.0.5/8" 167772165 8 (by decide) (by decide)

/-- C8: if any expression of the combined list fails to parse, the whole
build aborts with an error naming an offending (the first failing)
expression, and `main` terminates with an error whatever the input is — so
the failure is reported before any input line is processed. -/
theorem c8_invalid_expression_aborts (parseNet : String → Option Network)
    (parseAddr : String → Option Address) (args : Args) (c : String)
    (input : List String)
    (hc : c ∈ cidr_strings_of parseNet args) (hfail : parseNet c = none) :
    (∃ c', c' ∈ cidr_strings_of parseNet args ∧ parseNet c' = none ∧
      load_cidrs parseNet args = .error (.invalidCidr c')) ∧
    ∃ e, main parseNet parseAddr args input = .error e := by
  obtain ⟨c', h1, h2, h3⟩ :=
    parse_networks_error parseNet (cidr_strings_of parseNet args) c hc hfail
  have hne : cidr_strings_of parseNet args ≠ [] := by
    intro hnil
    rw [hnil] at hc
    exact absurd hc (List.not_mem_nil c)
  have hload : load_cidrs parseNet args = .error (.invalidCidr c') := by
    simp [load_cidrs, hne, h3]
  refine ⟨⟨c', h1, h2, hload⟩, ?_⟩
  by_cases hf : args.field < 1
  · exact ⟨.badField, by simp [main, hf]⟩
  · exact ⟨.invalidCidr c', by simp [main, hf, hload]⟩

theorem c8_invalid_expression_aborts_witness :
    (∃ c', c' ∈ cidr_strings_of parseIPv4Network
        ⟨["10.0.0.999/8"], none, false, false, false, 1, []⟩ ∧
      parseIPv4Network c' = none ∧
      load_cidrs parseIPv4Network
        ⟨["10.0.0.999/8"], none, false, false, false, 1, []⟩ =
        .error (.invalidCidr c')) ∧
    ∃ e, main parseIPv4Network parseIPv4Addr
      ⟨["10.0.0.999/8"], none, false, false, false, 1, []⟩
      ["10.1.2.3 up\n"] = .error e :=
  c8_invalid_expression_aborts parseIPv4Network parseIPv4Addr
    ⟨["10.0.0.999/8"], none, false, false, false, 1, []⟩ "10.0.0.999/8"
    ["10.1.2.3 up\n"] (by decide) (by decide)

/-- C9: an empty resolved expression list, or a field number below 1, makes
`main` terminate with an error whatever the input is, so no output is ever
produced in these cases. -/
theorem c9_config_errors (parseNet : String → Option Network)
    (parseAddr : String → Option Address) (args : Args) (input : List String)
    (h : cidr_strings_of parseNet args = [] ∨ args.field < 1) :
    ∃ e, main parseNet parseAddr args input = .error e := by
  by_cases hf : args.field < 1
  · exact ⟨.badField, by simp [main, hf]⟩
  · rcases h with hempty | hf2
    · exact ⟨.noCidrs, by simp [main, hf, load_cidrs, hempty]⟩
    · exact absurd hf2 hf

theorem c9_config_errors_witness :
    ∃ e, main parseIPv4Network parseIPv4Addr
      ⟨[], none, false, false, false, 1, []⟩ ["10.1.2.3 up\n"] = .error e :=
  c9_config_errors parseIPv4Network parseIPv4Addr
    ⟨[], none, false, false, false, 1, []⟩ ["10.1.2.3 up\n"] (Or.inl (by decide))

/-- C10: when the count flag and the only-matching flag are both set, count
mode wins: the line loop writes nothing for any line, and the whole output is
the single final count line. -/
theorem c10_count_over_only_matching (parseNet : String → Option Network)
    (parseAddr : String → Option Address) (args : Args) (input : List String)
    (networks : List Network) (infile : Option String)
    (hcount : args.count = true)
    (_honly : args.only_matching = true)
    (hfield : ¬ args.field < 1)
    (hload : load_cidrs parseNet args = .ok (networks, infile)) :
    (input.foldl (processLine parseAddr args networks (args.field - 1).toNat)
      (0, [])).2 = [] ∧
    main parseNet parseAddr args input =
      .ok [Nat.repr (input.countP
        (lineSelected parseAddr args networks (args.field - 1).toNat)) ++ "\n"] := by
  constructor
  · exact foldl_processLine_snd_count parseAddr args networks
      (args.field - 1).toNat hcount input (0, [])
  · rw [main_ok parseNet parseAddr args input networks infile hfield hload,
      if_pos hcount,
      foldl_processLine_snd_count parseAddr args networks (args.field - 1).toNat
        hcount input (0, []),
      foldl_processLine_fst parseAddr args networks (args.field - 1).toNat
        input (0, [])]
    simp

theorem c10_count_over_only_matching_witness :
    ((["host1 10.1.2.3 up\n", "h2 8.8.8.8 x\n"] : List String).foldl
      (processLine parseIPv4Addr ⟨["10.0.0.0/8"], none, false, true, true, 2, []⟩
        [(⟨4, 8, 167772160⟩ : Network)] (((2 : Int) - 1)).toNat) (0, [])).2 = [] ∧
    main parseIPv4Network parseIPv4Addr
        ⟨["10.0.0.0/8"], none, false, true, true, 2, []⟩
        ["host1 10.1.2.3 up\n", "h2 8.8.8.8 x\n"] =
      .ok [Nat.repr ((["host1 10.1.2.3 up\n", "h2 8.8.8.8 x\n"] : List String).countP
        (lineSelected parseIPv4Addr ⟨["10.0.0.0/8"], none, false, true, true, 2, []⟩
          [(⟨4, 8, 167772160⟩ : Network)] (((2 : Int) - 1)).toNat)) ++ "\n"] :=
  c10_count_over_only_matching parseIPv4Network parseIPv4Addr
    ⟨["10.0.0.0/8"], none, false, true, true, 2, []⟩
    ["host1 10.1.2.3 up\n", "h2 8.8.8.8 x\n"]
    [⟨4, 8, 167772160⟩] none rfl rfl (by decide) rfl

end Grepcidr
